import Mathlib

/-!
Verification of the function-value runtime (`src/model/func.rs`): the `Func`
value (native functions, user-defined closures, partial applications), its
call dispatch, closure invocation, and the free-variable capture analyzer.

The embedding translates the Rust source into Lean. External collaborators
that live outside the given source file (argument lists, scope chains, the
control-flow signal, document nodes) are modelled from the specification's
interface contracts; each such definition is marked `Modelled from the spec:`
in its doc comment. Machine addresses (Arc allocations, function pointers)
are modelled as natural numbers standing for the address bits.
-/

namespace Typst

/-- Runtime values. The source's `Value` enum is large; the claims only need
a few inhabitants plus `Value::Args` (the aggregate produced by `Args::take`
and bound to a sink parameter). `args` holds (optional name, value) items. -/
inductive Value where
  | none
  | int (z : Int)
  | bool (b : Bool)
  | str (s : String)
  | args (items : List (Option String × Value))

/-- One argument item: an optional name (none = positional) and a value.
Models the `Arg` struct (spans dropped). -/
abbrev ArgItem := Option String × Value

/-- Evaluated arguments to a function. Models `Args` (span dropped). -/
structure Args where
  items : List ArgItem

/-- A single scope mapping names to values. Models `Scope`; an association
list where a later `define` of the same name shadows the earlier one, so
lookup takes the first match. -/
abbrev Scope := List (String × Value)

/-- Modelled from the spec: ScopeChain `define(name, value)` — defining a
name in a scope; a redefinition shadows the old slot. Also stands for the
source's `Scope::define_captured`, which stores a captured value under its
name with the same lookup semantics. -/
def scopeDefine (sc : Scope) (name : String) (v : Value) : Scope :=
  (name, v) :: sc

/-- Modelled from the spec: ScopeChain lookup inside one scope. -/
def scopeGet (sc : Scope) (name : String) : Option Value :=
  (sc.find? fun p => decide (p.1 = name)).map Prod.snd

/-- A chain of scopes: the active top scope plus the stack of outer frames,
most recently pushed first. Models `Scopes` (with no base scope). -/
structure Scopes where
  top : Scope
  rest : List Scope

/-- Lookup through a list of frames in order. -/
def scopesGetList : List Scope → String → Option Value
  | [], _ => Option.none
  | s :: rest, n =>
    match scopeGet s n with
    | some v => some v
    | Option.none => scopesGetList rest n

/-- Modelled from the spec: ScopeChain `get(name)` — innermost-to-outermost
lookup: the top scope first, then the pushed frames from most recent out. -/
def scopesGet (scopes : Scopes) (n : String) : Option Value :=
  match scopeGet scopes.top n with
  | some v => some v
  | Option.none => scopesGetList scopes.rest n

/-- Modelled from the spec: ScopeChain `enter()` — push the current top
frame and start a fresh one. -/
def scopesEnter (scopes : Scopes) : Scopes :=
  ⟨[], scopes.top :: scopes.rest⟩

/-- Modelled from the spec: ScopeChain `exit()` — drop the current top
frame and restore the most recently pushed one. -/
def scopesExit (scopes : Scopes) : Scopes :=
  match scopes.rest with
  | s :: rest => ⟨s, rest⟩
  | [] => ⟨[], []⟩

/-- A source file id; `Option.none` models `SourceId::detached()`. -/
abbrev SourceId := Option Nat

/-- Modelled from the spec: CallRoute — the recursion-chain identity; holds
the anchoring source id (`Route::new(location)`), or none for the default
route. -/
abbrev Route := Option Nat

/-- The virtual machine state visible to this file: the world (opaque,
modelled as a number), the current location, the tracked route, and the
caller's scope chain. Models the `Vm` fields that `Func::call` and
`Closure::call` read. -/
structure Vm where
  world : Nat
  location : SourceId
  route : Route
  scopes : Scopes

/-- The error taxonomy of the call protocol (source spans dropped). -/
inductive Err where
  | missingArgument (name : String)
  | unexpectedArgument
  | notCustomizable
  | notSelectable
  | illegalControlFlow (kind : String)
  | other (msg : String)
deriving DecidableEq

/-- Modelled from the spec: the control-flow signal left in `vm.flow` by
body evaluation — break, continue, or return with an optional value
(spans dropped). -/
inductive Flow where
  | brk
  | cont
  | ret (value : Option Value)

/-- Modelled from the spec: `Flow::forbidden()` — the IllegalControlFlow
error produced when a pending signal is not legal at a closure boundary. -/
def Flow.forbidden : Flow → Err
  | .brk => .illegalControlFlow "break"
  | .cont => .illegalControlFlow "continue"
  | .ret _ => .illegalControlFlow "return"

/-- Modelled from the spec: an opaque style configuration (`StyleMap`). -/
abbrev StyleMap := Nat

/-- A selector over document nodes: a node id together with optional
named-argument equality predicates. Models `Selector::Node`. -/
inductive Selector where
  | node (id : Nat) (named : Option (List (String × Value)))

/-- A native function. Models the `Native` struct: name, call pointer,
optional set rule, optional node id. The function pointers become Lean
functions over the modelled `Vm`/`Args`. -/
structure Native where
  name : String
  func : Vm → Args → Except Err (Value × Args)
  set : Option (Args → Except Err (StyleMap × Args))
  node : Option Nat

/-- Modelled from the spec: the document-node contract behind `from_node` —
a set rule with a permissive flag, a constructor, applying the scoped
styles to content, and a stable node id. -/
structure NodeModel where
  setRule : Bool → Args → Except Err (StyleMap × Args)
  construct : Vm → Args → Except Err (Value × Args)
  styled : Value → StyleMap → Value
  nodeId : Nat

/-- A user-defined closure. Models the `Closure` struct. The body
expression's evaluation (`self.body.eval(&mut sub)`) is external to the
source file, so the body is modelled as a semantic function of the sub-vm's
world, route, and scopes, returning the evaluation result together with the
control-flow signal left in `sub.flow`. -/
structure Closure where
  location : SourceId
  name : Option String
  captured : Scope
  params : List (String × Option Value)
  sink : Option String
  body : Nat → Route → Scopes → Except Err Value × Option Flow

/-- Remove the first positional (unnamed) item from an item list, returning
its value and the remaining items. Helper for `argsExpect`. -/
def takeFirstPositional : List ArgItem → Option (Value × List ArgItem)
  | [] => Option.none
  | a :: rest =>
    match a.1 with
    | Option.none => some (a.2, rest)
    | some _ => (takeFirstPositional rest).map fun p => (p.1, a :: p.2)

/-- Modelled from the spec: ArgumentList `expect(name)` — consume the next
positional argument; if absent, fail with MissingArgument(name). -/
def argsExpect (args : Args) (what : String) : Except Err (Value × Args) :=
  match takeFirstPositional args.items with
  | some (v, rest) => .ok (v, ⟨rest⟩)
  | Option.none => .error (.missingArgument what)

/-- Modelled from the spec: ArgumentList `named(name)` — look up a
same-named argument, consuming every item of that name (the last one
provided wins); returns none if absent. -/
def argsNamed (args : Args) (name : String) : Option Value × Args :=
  let matching := args.items.filter fun a => decide (a.1 = some name)
  let rest := args.items.filter fun a => !(decide (a.1 = some name))
  ((matching.getLast?).map Prod.snd, ⟨rest⟩)

/-- Modelled from the spec: ArgumentList `take()` — the aggregate of all
remaining items, consuming them. -/
def argsTake (args : Args) : Value × Args :=
  (.args args.items, ⟨[]⟩)

/-- Modelled from the spec: ArgumentList `finish()` — succeeds only when
every item has been consumed; otherwise UnexpectedArgument. -/
def argsFinish (args : Args) : Except Err Unit :=
  match args.items with
  | [] => .ok ()
  | _ :: _ => .error .unexpectedArgument

/-- Modelled from the spec: ArgumentList `toNamed()` — a snapshot of the
named items, in order, without consuming anything. Models `Args::to_named`. -/
def namedSnapshot (args : Args) : List (String × Value) :=
  args.items.filterMap fun a => a.1.map fun n => (n, a.2)

/-- Modelled from the spec: ArgumentList `spliceFront(items)` — prepend the
pre-bound items ahead of the caller-supplied items. Models
`args.items.splice(..0, applied.items.iter().cloned())`. -/
def argsSplice (applied target : Args) : Args :=
  ⟨applied.items ++ target.items⟩

/-- Control-flow reconciliation after a closure body has been evaluated.
Models the `match sub.flow` block at the end of `Closure::call`: an explicit
return with a value replaces the body's own result; a bare return and the
absence of a signal keep it; any other signal is forbidden. -/
def reconcileFlow (flow : Option Flow) (result : Except Err Value) :
    Except Err Value :=
  match flow with
  | some (.ret (some explicit)) => .ok explicit
  | some (.ret Option.none) => result
  | some f => .error f.forbidden
  | Option.none => result

/-- The parameter-binding loop of `Closure::call`: for each parameter in
order, a defaulted (named) parameter consumes a same-named argument or
falls back to its default, and a defaultless (positional) parameter
consumes the next positional argument or fails with MissingArgument. The
bindings are defined into the top scope, which starts as the captured
snapshot. -/
def bindParamsLoop :
    List (String × Option Value) → Scope → Args → Except Err (Scope × Args)
  | [], top, args => .ok (top, args)
  | (param, dflt) :: rest, top, args =>
    match dflt with
    | some d =>
      let found := argsNamed args param
      bindParamsLoop rest (scopeDefine top param (found.1.getD d)) found.2
    | Option.none =>
      match argsExpect args param with
      | .error e => .error e
      | .ok (v, args') => bindParamsLoop rest (scopeDefine top param v) args'

/-- Closure invocation. Models `Closure::call`: a fresh scope chain seeded
from the captured snapshot (never from the call site's scopes), the
parameter-binding loop, the sink binding, route selection (a fresh route
anchored at the closure's location when the vm is detached, the caller's
route otherwise), body evaluation, and control-flow reconciliation. Returns
the result together with the argument list as left after consumption. -/
def closureCall (c : Closure) (vm : Vm) (args : Args) :
    Except Err (Value × Args) :=
  match bindParamsLoop c.params c.captured args with
  | .error e => .error e
  | .ok (top, args1) =>
    let sunk : Scope × Args :=
      match c.sink with
      | some s =>
        let taken := argsTake args1
        (scopeDefine top s taken.1, taken.2)
      | Option.none => (top, args1)
    let route : Route := if vm.location.isNone then c.location else vm.route
    let scopes : Scopes := ⟨sunk.1, []⟩
    let outcome := c.body vm.world route scopes
    match reconcileFlow outcome.2 outcome.1 with
    | .error e => .error e
    | .ok v => .ok (v, sunk.2)

mutual
/-- A function value: a reference-counted handle to a representation. The
`allocId` field models the `Arc` allocation address, on which `PartialEq`
compares. Models `pub struct Func(Arc<Repr>)`. -/
inductive Func : Type where
  | mk (allocId : Nat) (rep : Repr)

/-- The three function representations. Models the `Repr` enum: a native
rust function, a user-defined closure, or a nested function with
pre-applied arguments. -/
inductive Repr : Type where
  | native (n : Native)
  | closure (c : Closure)
  | With (wrapped : Func) (applied : Args)
end

/-- The modelled allocation address of a function value. -/
def Func.allocId : Func → Nat
  | .mk i _ => i

/-- The representation behind the handle (the `Arc` pointee). -/
def Func.rep : Func → Repr
  | .mk _ r => r

/-- Equality of function values. Models `impl PartialEq for Func`, which is
`Arc::ptr_eq` — comparison of the allocation addresses, never of the
structural content. -/
def funcEq : Func → Func → Bool
  | .mk i _, .mk j _ => i == j

/-- Creating a function value from a representation. Models `Arc::new`: the
counter is the next free address, so every creation yields a fresh
allocation distinct from all earlier ones. -/
def alloc (r : Repr) (ctr : Nat) : Func × Nat :=
  (.mk ctr r, ctr + 1)

/-- Cloning a function value. Models `#[derive(Clone)]` on `Func`: cloning
an `Arc` returns a handle to the same allocation. -/
def Func.clone (f : Func) : Func := f

/-- The data the derived `Hash` for `Func` feeds to the hasher: hashing an
`Arc<Repr>` delegates to the pointee, so the hash input is the structural
representation and never includes the allocation address. -/
def funcHashInput (f : Func) : Repr := f.rep

/-- The number of positional arguments a closure takes, if known. Models
`Closure::argc`: unknown whenever a sink is present, otherwise the count of
parameters without default values. -/
def Closure.argc (c : Closure) : Option Nat :=
  if c.sink.isSome then Option.none
  else some ((c.params.filter fun p => p.2.isNone).length)

/-- The number of positional arguments a function takes, if known. Models
`Func::argc`: a closure defers to `Closure::argc`; a partial application
subtracts the count of already-applied positional items from the wrapped
arity (saturating, via truncated Nat subtraction), propagating unknown; a
native is always unknown. -/
def Func.argc : Func → Option Nat
  | .mk _ (.closure c) => c.argc
  | .mk _ (.With wrapped applied) =>
    (Func.argc wrapped).map fun n =>
      n - (applied.items.filter fun a => a.1.isNone).length
  | .mk _ (.native _) => Option.none

/-- Call dispatch. Models `Func::call`: a native invokes its call pointer
and then checks exhaustion; a closure runs `Closure::call` and then checks
exhaustion; a partial application splices the pre-applied items in front of
the caller-supplied items and returns the wrapped call directly, performing
no exhaustion check of its own. -/
def Func.call : Func → Vm → Args → Except Err Value
  | .mk _ (.native n), vm, args =>
    match n.func vm args with
    | .error e => .error e
    | .ok (v, rest) =>
      match argsFinish rest with
      | .error e => .error e
      | .ok _ => .ok v
  | .mk _ (.closure c), vm, args =>
    match closureCall c vm args with
    | .error e => .error e
    | .ok (v, rest) =>
      match argsFinish rest with
      | .error e => .error e
      | .ok _ => .ok v
  | .mk _ (.With wrapped applied), vm, args =>
    Func.call wrapped vm (argsSplice applied args)

/-- Executing the function's set rule. Models `Func::set`: only a native
with a set rule qualifies; the rule runs, then the arguments must be
exhausted; every other function value fails (NotCustomizable). -/
def Func.set (f : Func) (args : Args) : Except Err StyleMap :=
  match f with
  | .mk _ (.native n) =>
    match n.set with
    | some rule =>
      match rule args with
      | .error e => .error e
      | .ok (styles, rest) =>
        match argsFinish rest with
        | .error e => .error e
        | .ok _ => .ok styles
    | Option.none => .error .notCustomizable
  | _ => .error .notCustomizable

/-- The id of the node this function customizes. Models `Func::node`: only
a native with a node id qualifies; everything else fails. -/
def Func.node : Func → Except Err Nat
  | .mk _ (.native n) =>
    match n.node with
    | some id => .ok id
    | Option.none => .error .notCustomizable
  | _ => .error .notCustomizable

/-- Building a selector. Models `Func::where_`: only a native with a node
id qualifies; the named arguments are snapshotted into the selector's
equality predicates and removed from the argument list (only positional
items are retained); everything else fails (NotSelectable). -/
def Func.where_ : Func → Args → Except Err (Selector × Args)
  | .mk _ (.native n), args =>
    match n.node with
    | some id =>
      .ok (.node id (some (namedSnapshot args)),
        ⟨args.items.filter fun a => a.1.isNone⟩)
    | Option.none => .error .notSelectable
  | _, _ => .error .notSelectable

/-- Creating a function from a native rust function. Models `Func::from_fn`
(no set rule, no node id); the allocation address is passed explicitly. -/
def Func.fromFn (i : Nat) (nm : String)
    (fn : Vm → Args → Except Err (Value × Args)) : Func :=
  .mk i (.native ⟨nm, fn, Option.none, Option.none⟩)

/-- Creating a function from a native rust node. Models `Func::from_node`:
the call pointer runs the permissive set rule, constructs content, and
styles it with the scoped styles; the set rule field runs the strict set
rule; the node id is recorded. -/
def Func.fromNode (i : Nat) (nm : String) (nd : NodeModel) : Func :=
  .mk i (.native ⟨nm,
    fun ctx args =>
      match nd.setRule true args with
      | .error e => .error e
      | .ok (styles, args1) =>
        match nd.construct ctx args1 with
        | .error e => .error e
        | .ok (content, args2) => .ok (nd.styled content styles, args2),
    some (fun args => nd.setRule false args),
    some nd.nodeId⟩)

/-- The tokens the manual `impl Hash for Native` feeds to the hasher:
strings, raw numeric words, and `Option` discriminants. -/
inductive HashToken where
  | strT (s : String)
  | natT (n : Nat)
  | discT (d : Nat)
deriving DecidableEq

/-- The hash-relevant fields of a `Native`, as the manual `Hash` impl sees
them: the static name, the raw bit pattern of the call pointer
(`self.func as usize`), the raw bit pattern of the set-rule pointer
(`self.set.map(|set| set as usize)`), and the node id. The pointer bit
patterns are modelled as natural numbers. -/
structure NativeHashData where
  name : String
  funcPtr : Nat
  setPtr : Option Nat
  node : Option Nat
deriving DecidableEq

/-- Tokens fed for an `Option<usize>` field: the discriminant, then the
payload when present. -/
def optTokens : Option Nat → List HashToken
  | Option.none => [.discT 0]
  | some n => [.discT 1, .natT n]

/-- The token stream `impl Hash for Native` feeds to the hasher, in source
order: the name, the call pointer's bits, the set pointer's bits, the node
id. -/
def nativeHashStream (nh : NativeHashData) : List HashToken :=
  .strT nh.name :: .natT nh.funcPtr ::
    (optTokens nh.setPtr ++ optTokens nh.node)

/-- Imported names of an import expression: a wildcard or an item list.
Models `ast::Imports`. -/
inductive Imports where
  | wildcard
  | items (names : List String)

mutual
/-- A syntax subtree, restricted to the shapes the capture analyzer
distinguishes: identifier uses, code/content blocks, closure literals, let
bindings (with and without initializer), for loops, imports, and any other
node with children traversed in source order. Child sequences use the
mutually defined `SynList`. Models the `SyntaxNode`/`ast::Expr` cases of
`CapturesVisitor::visit`. -/
inductive SynNode : Type where
  | ident (name : String)
  | code (children : SynList)
  | content (children : SynList)
  | closureLit (params : ParamList) (body : SynNode)
  | letInit (binding : String) (init : SynNode)
  | letEmpty (binding : String)
  | forLoop (key : Option String) (value : String)
      (iter : SynNode) (body : SynNode)
  | importE (path : SynNode) (imports : Imports)
  | other (children : SynList)

/-- A sequence of sibling syntax nodes, in source order. -/
inductive SynList : Type where
  | nil
  | cons (head : SynNode) (tail : SynList)

/-- A closure parameter: positional, named with a default-value expression,
or the argument sink. Models `ast::Param`. -/
inductive Param : Type where
  | pos (name : String)
  | named (name : String) (expr : SynNode)
  | sink (name : String)

/-- A sequence of parameters, in source order. -/
inductive ParamList : Type where
  | nil
  | cons (head : Param) (tail : ParamList)
end

/-- The introduced name of a parameter (positional, named, or sink). -/
def Param.introduced : Param → String
  | .pos n => n
  | .named n _ => n
  | .sink n => n

/-- The capture analyzer's state: the stack of internal binding frames and
the accumulated capture snapshot. The external (outer) scopes are passed
separately and are read-only. Models `CapturesVisitor`. -/
structure CapturesVisitor where
  internal : Scopes
  captures : Scope

/-- The analyzer's starting state: no internal bindings, empty snapshot. -/
def initVisitor : CapturesVisitor := ⟨⟨[], []⟩, []⟩

/-- Bind a new internal variable in the top internal frame. Models
`CapturesVisitor::bind`. -/
def bindVar (vis : CapturesVisitor) (ident : String) : CapturesVisitor :=
  ⟨⟨scopeDefine vis.internal.top ident Value.none, vis.internal.rest⟩,
    vis.captures⟩

/-- Bind an optional name (a for pattern's key) when present. -/
def bindOptVar (vis : CapturesVisitor) : Option String → CapturesVisitor
  | some k => bindVar vis k
  | Option.none => vis

/-- Capture a variable if it is not shadowed by an internal binding and is
resolvable in the external scopes, cloning its current value into the
snapshot. Models `CapturesVisitor::capture`. -/
def captureVar (ext : Scopes) (vis : CapturesVisitor) (ident : String) :
    CapturesVisitor :=
  if (scopesGet vis.internal ident).isSome then vis
  else
    match scopesGet ext ident with
    | some v => ⟨vis.internal, scopeDefine vis.captures ident v⟩
    | Option.none => vis

/-- Push a fresh internal frame. -/
def visitorEnter (vis : CapturesVisitor) : CapturesVisitor :=
  ⟨scopesEnter vis.internal, vis.captures⟩

/-- Pop the current internal frame. -/
def visitorExit (vis : CapturesVisitor) : CapturesVisitor :=
  ⟨scopesExit vis.internal, vis.captures⟩

/-- Bind the introduced names of all parameters (positional, named, sink)
as internal, in order. Models the second loop of the closure case of
`CapturesVisitor::visit`. -/
def bindParamNames (vis : CapturesVisitor) : ParamList → CapturesVisitor
  | .nil => vis
  | .cons p t => bindParamNames (bindVar vis p.introduced) t

/-- Bind every imported name when the import lists items. Models the
`ast::Imports::Items` loop of the import case. -/
def bindImports (vis : CapturesVisitor) : Imports → CapturesVisitor
  | .wildcard => vis
  | .items names => names.foldl (fun v n => bindVar v n) vis

mutual
/-- The capture analyzer's single forward pass. Models
`CapturesVisitor::visit` case for case: identifiers are captured;
code/content blocks push and pop an internal frame around their children;
a closure literal first visits the named parameters' default expressions,
then binds all parameter names, then visits the body; a let visits the
initializer (when present) before binding; a for loop visits the iterable,
then binds the pattern's key and value, then visits the body; an import
visits the path, then binds the imported names; anything else recurses over
its children in source order. -/
def visit (ext : Scopes) (vis : CapturesVisitor) : SynNode → CapturesVisitor
  | .ident name => captureVar ext vis name
  | .code children => visitorExit (visitList ext (visitorEnter vis) children)
  | .content children =>
    visitorExit (visitList ext (visitorEnter vis) children)
  | .closureLit params body =>
    visit ext (bindParamNames (visitDefaults ext vis params) params) body
  | .letInit b init => bindVar (visit ext vis init) b
  | .letEmpty b => bindVar vis b
  | .forLoop key value iter body =>
    visit ext (bindVar (bindOptVar (visit ext vis iter) key) value) body
  | .importE path imports => bindImports (visit ext vis path) imports
  | .other children => visitList ext vis children

/-- Visit a sequence of sibling nodes left to right. -/
def visitList (ext : Scopes) (vis : CapturesVisitor) :
    SynList → CapturesVisitor
  | .nil => vis
  | .cons h t => visitList ext (visit ext vis h) t

/-- Visit the default-value expressions of the named parameters, in order,
skipping positional and sink parameters. Models the first loop of the
closure case of `CapturesVisitor::visit`. -/
def visitDefaults (ext : Scopes) (vis : CapturesVisitor) :
    ParamList → CapturesVisitor
  | .nil => vis
  | .cons (.named _ e) t => visitDefaults ext (visit ext vis e) t
  | .cons (.pos _) t => visitDefaults ext vis t
  | .cons (.sink _) t => visitDefaults ext vis t
end

/-- The names captured when analyzing a subtree under the given external
scopes, in snapshot order (most recently captured first). -/
def capturedNames (ext : Scopes) (node : SynNode) : List String :=
  (visit ext initVisitor node).captures.map Prod.fst

/-- Outer scopes binding x, y, z (each to 0), as in the source's capture
tests. -/
def ext3 : Scopes :=
  ⟨[("x", Value.int 0), ("y", Value.int 0), ("z", Value.int 0)], []⟩

/-- The subtree of `let x = x`. -/
def exLet : SynNode := .letInit "x" (.ident "x")

/-- The subtree of `(x, y: x + z) => x + y`: a closure literal with a
positional parameter x, a named parameter y whose default is `x + z`, and
body `x + y`. -/
def exClo : SynNode :=
  .closureLit
    (.cons (.pos "x")
      (.cons
        (.named "y"
          (.other (.cons (.ident "x") (.cons (.ident "z") .nil))))
        .nil))
    (.other (.cons (.ident "x") (.cons (.ident "y") .nil)))

/-- An outer scope binding x to 0, used to demonstrate copy-capture. -/
def demoExt : Scopes := ⟨[("x", Value.int 0)], []⟩

/-- The snapshot the analyzer produces for a bare use of x under
`demoExt`. -/
def demoSnap : Scope := (visit demoExt initVisitor (.ident "x")).captures

/-- A closure over `demoSnap` whose body reads x from its scopes. -/
def demoClosure : Closure :=
  ⟨some 0, Option.none, demoSnap, [], Option.none,
    fun _ _ sc => (Except.ok ((scopesGet sc "x").getD Value.none),
      Option.none)⟩

/-- A vm whose scope chain holds the mutated binding x = 1, modelling the
original variable being reassigned after the closure was created. -/
def demoVmMutated : Vm := ⟨0, some 1, some 1, ⟨[("x", Value.int 1)], []⟩⟩

/-- A closure with no parameters and no sink whose body evaluation fails
with an error of its own. -/
def cexClosure : Closure :=
  ⟨some 0, Option.none, [], [], Option.none,
    fun _ _ _ => (Except.error (Err.other "boom"), Option.none)⟩

/-- A non-detached vm with empty scopes. -/
def cexVm : Vm := ⟨0, some 0, some 0, ⟨[], []⟩⟩

/-- A closure with no parameters and no sink whose body succeeds. -/
def wClosureOk : Closure :=
  ⟨some 0, Option.none, [], [], Option.none,
    fun _ _ _ => (Except.ok Value.none, Option.none)⟩

/-- A native function that consumes nothing and succeeds. -/
def wNativeOk : Native :=
  ⟨"f", fun _ a => Except.ok (Value.none, a), Option.none, Option.none⟩

/-- A closure with one required positional parameter `a` and no sink. -/
def wClosureMissing : Closure :=
  ⟨some 0, Option.none, [], [("a", Option.none)], Option.none,
    fun _ _ _ => (Except.ok Value.none, Option.none)⟩

/-- A native hash record for a node-free native named rect whose call
pointer sits at address 1. -/
def nhA : NativeHashData := ⟨"rect", 1, Option.none, Option.none⟩

/-- The same native hash record except the call pointer sits at address 2. -/
def nhB : NativeHashData := ⟨"rect", 2, Option.none, Option.none⟩

/-- A concrete representation shared by two distinct allocations in the
hash/equality contrast. -/
def exRepr : Repr :=
  .native ⟨"f", fun _ a => Except.ok (Value.none, a), Option.none,
    Option.none⟩

/-- C1: in the capture analyzer, every name-introducing construct binds its
names only after its pre-binding expressions are visited: a let's
initializer, a for loop's iterable, an import's path, and a nested
closure's named-parameter defaults are each visited in the state holding
the bindings active before the construct, and only then are the introduced
names (the let binding, the loop pattern's key and value, the imported
names, all parameter names including the sink) bound as internal.
Consequently, with outer bindings x, y, z, `let x = x` captures exactly
the set containing x (the snapshot is the list ["x"]) and
`(x, y: x + z) => x + y` captures exactly the set containing x and z (the
snapshot lists z then x, capture order being most-recent-first). -/
theorem capture_binding_order :
    (∀ (ext : Scopes) (vis : CapturesVisitor) (b : String) (init : SynNode),
      visit ext vis (.letInit b init) = bindVar (visit ext vis init) b)
    ∧ (∀ (ext : Scopes) (vis : CapturesVisitor) (key : Option String)
        (value : String) (iter body : SynNode),
      visit ext vis (.forLoop key value iter body)
        = visit ext (bindVar (bindOptVar (visit ext vis iter) key) value)
            body)
    ∧ (∀ (ext : Scopes) (vis : CapturesVisitor) (path : SynNode)
        (imports : Imports),
      visit ext vis (.importE path imports)
        = bindImports (visit ext vis path) imports)
    ∧ (∀ (ext : Scopes) (vis : CapturesVisitor) (params : ParamList)
        (body : SynNode),
      visit ext vis (.closureLit params body)
        = visit ext (bindParamNames (visitDefaults ext vis params) params)
            body)
    ∧ capturedNames ext3 exLet = ["x"]
    ∧ capturedNames ext3 exClo = ["z", "x"] :=
  ⟨fun _ _ _ _ => rfl, fun _ _ _ _ _ _ => rfl, fun _ _ _ _ => rfl,
    fun _ _ _ _ => rfl, by decide, by decide⟩

/-- C2: a closure's captured snapshot holds cloned values, not live
references: invocation is entirely independent of the caller's scope chain
(only the captured snapshot seeds the body's scopes), the analyzer clones
the outer value into the snapshot at analysis time, and a closure built
over the snapshot of x = 0 still observes 0 when called from a vm whose
scopes hold the mutated binding x = 1. The last conjunct shows each
invocation seeding the fresh scope chain from the snapshot: the body of a
parameterless, sinkless closure reads its names from exactly the scope
chain whose sole frame is the captured scope. -/
theorem copy_capture_snapshot :
    (∀ (c : Closure) (args : Args) (w : Nat) (l : SourceId) (r : Route)
        (sc₁ sc₂ : Scopes),
      closureCall c ⟨w, l, r, sc₁⟩ args = closureCall c ⟨w, l, r, sc₂⟩ args)
    ∧ demoSnap = [("x", Value.int 0)]
    ∧ (∀ args : Args,
      closureCall demoClosure demoVmMutated args
        = Except.ok (Value.int 0, args))
    ∧ (∀ (loc : SourceId) (nm : Option String) (cap : Scope) (n : String)
        (vm : Vm) (args : Args),
      closureCall
        ⟨loc, nm, cap, [], Option.none,
          fun _ _ sc => (Except.ok ((scopesGet sc n).getD Value.none),
            Option.none)⟩ vm args
        = Except.ok ((scopesGet ⟨cap, []⟩ n).getD Value.none, args)) :=
  ⟨fun _ _ _ _ _ _ _ => rfl, rfl, fun _ => rfl, fun _ _ _ _ _ _ => rfl⟩

/-- C3 counterexample: the claim says an unconsumed argument makes the call
fail with UnexpectedArgument before the closure body is evaluated. Here a
call supplies a positional argument that no parameter or sink consumes,
yet the call fails with the body's own error: the body was evaluated, and
the failure is not UnexpectedArgument. -/
theorem exhaustion_after_body_cex :
    Func.call (.mk 0 (.closure cexClosure)) cexVm
        ⟨[(Option.none, Value.int 1)]⟩
      = .error (.other "boom")
    ∧ Err.other "boom" ≠ Err.unexpectedArgument :=
  ⟨rfl, by decide⟩

/-- C3 (amended): when body evaluation succeeds and leaves a legal
control-flow signal, a call of a closure or native that leaves any
unconsumed argument fails with UnexpectedArgument — the exhaustion check
running after body evaluation, not before; and a call that omits a
required positional parameter fails with MissingArgument before the body
is evaluated: the failure is fully determined by the parameter-binding
loop, so the call's outcome is the same for every body. -/
theorem exhaustion_amended :
    (∀ (i : Nat) (c : Closure) (vm : Vm) (args : Args) (v : Value)
        (rest : Args),
      closureCall c vm args = .ok (v, rest) → rest.items ≠ [] →
        Func.call (.mk i (.closure c)) vm args = .error .unexpectedArgument)
    ∧ (∀ (i : Nat) (n : Native) (vm : Vm) (args : Args) (v : Value)
        (rest : Args),
      n.func vm args = .ok (v, rest) → rest.items ≠ [] →
        Func.call (.mk i (.native n)) vm args = .error .unexpectedArgument)
    ∧ (∀ (i : Nat) (c : Closure) (vm : Vm) (args : Args) (p : String),
      bindParamsLoop c.params c.captured args = .error (.missingArgument p) →
        Func.call (.mk i (.closure c)) vm args
          = .error (.missingArgument p))
    ∧ (∀ (i : Nat) (loc : SourceId) (nm : Option String) (cap : Scope)
        (ps : List (String × Option Value)) (sk : Option String)
        (b₁ b₂ : Nat → Route → Scopes → Except Err Value × Option Flow)
        (vm : Vm) (args : Args) (p : String),
      bindParamsLoop ps cap args = .error (.missingArgument p) →
        Func.call (.mk i (.closure ⟨loc, nm, cap, ps, sk, b₁⟩)) vm args
          = Func.call (.mk i (.closure ⟨loc, nm, cap, ps, sk, b₂⟩)) vm
              args) := by
  refine ⟨?_, ?_, ?_, ?_⟩
  · intro i c vm args v rest hcall hne
    simp only [Func.call]
    rw [hcall]
    obtain ⟨items⟩ := rest
    cases items with
    | nil => exact absurd rfl hne
    | cons a t => rfl
  · intro i n vm args v rest hcall hne
    simp only [Func.call]
    rw [hcall]
    obtain ⟨items⟩ := rest
    cases items with
    | nil => exact absurd rfl hne
    | cons a t => rfl
  · intro i c vm args p h
    simp only [Func.call, closureCall]
    rw [h]
  · intro i loc nm cap ps sk b₁ b₂ vm args p h
    simp only [Func.call, closureCall]
    rw [h]

/-- C3 witness: concrete calls exercising each conjunct of the amended
exhaustion theorem — a closure and a native fed one superfluous positional
argument fail with UnexpectedArgument after their bodies succeed, a
closure missing its required positional parameter fails with
MissingArgument, and that failure is the same for two different bodies. -/
theorem exhaustion_amended_witness :
    Func.call (.mk 0 (.closure wClosureOk)) cexVm
        ⟨[(Option.none, Value.int 1)]⟩
      = .error .unexpectedArgument
    ∧ Func.call (.mk 0 (.native wNativeOk)) cexVm
        ⟨[(Option.none, Value.int 1)]⟩
      = .error .unexpectedArgument
    ∧ Func.call (.mk 0 (.closure wClosureMissing)) cexVm ⟨[]⟩
      = .error (.missingArgument "a")
    ∧ Func.call
        (.mk 0 (.closure ⟨some 0, Option.none, [], [("a", Option.none)],
          Option.none, fun _ _ _ => (Except.ok Value.none, Option.none)⟩))
        cexVm ⟨[]⟩
      = Func.call
          (.mk 0 (.closure ⟨some 0, Option.none, [], [("a", Option.none)],
            Option.none,
            fun _ _ _ => (Except.error (Err.other "x"), Option.none)⟩))
          cexVm ⟨[]⟩ :=
  ⟨exhaustion_amended.1 0 wClosureOk cexVm ⟨[(Option.none, Value.int 1)]⟩
      Value.none ⟨[(Option.none, Value.int 1)]⟩ rfl (by simp),
    exhaustion_amended.2.1 0 wNativeOk cexVm ⟨[(Option.none, Value.int 1)]⟩
      Value.none ⟨[(Option.none, Value.int 1)]⟩ rfl (by simp),
    exhaustion_amended.2.2.1 0 wClosureMissing cexVm ⟨[]⟩ "a" rfl,
    exhaustion_amended.2.2.2 0 (some 0) Option.none [] [("a", Option.none)]
      Option.none _ _ cexVm ⟨[]⟩ "a" rfl⟩

/-- C4: calling a partial application splices the pre-applied items in
front of the caller-supplied items and forwards the call entirely to the
wrapped function — the call is observationally equal to calling the
wrapped function on the spliced argument list, with no exhaustion check at
the partial-application layer (the wrapped call's own dispatch performs
the one authoritative check). -/
theorem with_splice_transparent :
    ∀ (i : Nat) (f : Func) (applied : Args) (vm : Vm) (args : Args),
      Func.call (.mk i (.With f applied)) vm args
        = Func.call f vm (argsSplice applied args) :=
  fun _ _ _ _ _ => rfl

/-- C5: after a closure's body is evaluated, the pending control-flow
signal is reconciled so that an explicit return with a value makes the
call return that value (discarding the body's own result, even an
erroring one), an explicit return without a value and the absence of a
signal both return the body's own result, and any other pending signal
(break or continue) fails with IllegalControlFlow; and closure invocation
applies exactly this reconciliation to the body's outcome. -/
theorem closure_flow_reconciliation :
    (∀ (r : Except Err Value) (v : Value),
      reconcileFlow (some (.ret (some v))) r = .ok v)
    ∧ (∀ r : Except Err Value, reconcileFlow (some (.ret Option.none)) r = r)
    ∧ (∀ r : Except Err Value, reconcileFlow Option.none r = r)
    ∧ (∀ r : Except Err Value,
      reconcileFlow (some .brk) r = .error (.illegalControlFlow "break"))
    ∧ (∀ r : Except Err Value,
      reconcileFlow (some .cont) r
        = .error (.illegalControlFlow "continue"))
    ∧ (∀ (loc : SourceId) (nm : Option String) (cap : Scope) (vm : Vm)
        (args : Args) (e : Err) (v : Value),
      closureCall
        ⟨loc, nm, cap, [], Option.none,
          fun _ _ _ => (Except.error e, some (.ret (some v)))⟩ vm args
        = Except.ok (v, args))
    ∧ (∀ (loc : SourceId) (nm : Option String) (cap : Scope) (vm : Vm)
        (args : Args) (r : Except Err Value) (fl : Option Flow),
      closureCall ⟨loc, nm, cap, [], Option.none, fun _ _ _ => (r, fl)⟩ vm
          args
        = match reconcileFlow fl r with
          | .error e => .error e
          | .ok v => .ok (v, args)) :=
  ⟨fun _ _ => rfl, fun _ => rfl, fun _ => rfl, fun _ => rfl, fun _ => rfl,
    fun _ _ _ _ _ _ _ => rfl, fun _ _ _ _ _ _ _ => rfl⟩

/-- C6: argc is unknown for every native; for a closure it is the count of
defaultless parameters when no sink is present and unknown whenever a sink
is present; for a partial application it is the wrapped arity minus the
count of already-applied positional (unnamed) items, with truncated
(saturating-at-zero) subtraction, and unknown when the wrapped arity is
unknown. -/
theorem argc_spec :
    (∀ (i : Nat) (n : Native), Func.argc (.mk i (.native n)) = Option.none)
    ∧ (∀ (i : Nat) (c : Closure),
      Func.argc (.mk i (.closure c))
        = if c.sink.isSome then Option.none
          else some ((c.params.filter fun p => p.2.isNone).length))
    ∧ (∀ (i : Nat) (f : Func) (applied : Args),
      Func.argc (.mk i (.With f applied))
        = (Func.argc f).map fun n =>
            n - (applied.items.filter fun a => a.1.isNone).length) :=
  ⟨fun _ _ => rfl, fun _ _ => rfl, fun _ _ _ => rfl⟩

/-- C7: equality of function values is allocation identity and never
structural — two handles compare equal exactly when their allocation
addresses coincide, and two values created by consecutive allocations are
unequal even when built from the very same representation (so two closures
evaluated from identical source text at different times are unequal). -/
theorem func_eq_allocation_identity :
    (∀ f g : Func, funcEq f g = (f.allocId == g.allocId))
    ∧ (∀ f g : Func, funcEq f g = true ↔ f.allocId = g.allocId)
    ∧ (∀ (ctr : Nat) (r₁ r₂ : Repr),
      funcEq (alloc r₁ ctr).1 (alloc r₂ (alloc r₁ ctr).2).1 = false) := by
  refine ⟨?_, ?_, ?_⟩
  · intro f g
    cases f
    cases g
    rfl
  · intro f g
    cases f
    cases g
    simp [funcEq, Func.allocId]
  · intro ctr r₁ r₂
    simp [alloc, funcEq]

/-- C8: the set, node, and selector-building operations succeed only on
node-backed natives: a plain native (from_fn), a closure, and a partial
application each fail with NotCustomizable for set and node and with
NotSelectable for where; a node-backed native (from_node) yields its node
id, builds a selector whose equality predicates are the named-argument
snapshot while the named arguments are consumed out of the argument list
(only positional items remain), and runs the strict set rule followed by
the exhaustion check. -/
theorem node_backed_ops :
    (∀ (i : Nat) (nm : String)
        (fn : Vm → Args → Except Err (Value × Args)) (args : Args),
      Func.set (Func.fromFn i nm fn) args = .error .notCustomizable)
    ∧ (∀ (i : Nat) (nm : String)
        (fn : Vm → Args → Except Err (Value × Args)),
      Func.node (Func.fromFn i nm fn) = .error .notCustomizable)
    ∧ (∀ (i : Nat) (nm : String)
        (fn : Vm → Args → Except Err (Value × Args)) (args : Args),
      Func.where_ (Func.fromFn i nm fn) args = .error .notSelectable)
    ∧ (∀ (i : Nat) (c : Closure) (args : Args),
      Func.set (.mk i (.closure c)) args = .error .notCustomizable)
    ∧ (∀ (i : Nat) (c : Closure),
      Func.node (.mk i (.closure c)) = .error .notCustomizable)
    ∧ (∀ (i : Nat) (c : Closure) (args : Args),
      Func.where_ (.mk i (.closure c)) args = .error .notSelectable)
    ∧ (∀ (i : Nat) (f : Func) (a args : Args),
      Func.set (.mk i (.With f a)) args = .error .notCustomizable)
    ∧ (∀ (i : Nat) (f : Func) (a : Args),
      Func.node (.mk i (.With f a)) = .error .notCustomizable)
    ∧ (∀ (i : Nat) (f : Func) (a args : Args),
      Func.where_ (.mk i (.With f a)) args = .error .notSelectable)
    ∧ (∀ (i : Nat) (nm : String) (nd : NodeModel),
      Func.node (Func.fromNode i nm nd) = .ok nd.nodeId)
    ∧ (∀ (i : Nat) (nm : String) (nd : NodeModel) (args : Args),
      Func.where_ (Func.fromNode i nm nd) args
        = .ok (.node nd.nodeId (some (namedSnapshot args)),
            ⟨args.items.filter fun a => a.1.isNone⟩))
    ∧ (∀ (i : Nat) (nm : String) (nd : NodeModel) (args : Args),
      Func.set (Func.fromNode i nm nd) args
        = match nd.setRule false args with
          | .error e => .error e
          | .ok (styles, rest) =>
            match argsFinish rest with
            | .error e => .error e
            | .ok _ => .ok styles) := by
  refine ⟨?_, ?_, ?_, ?_, ?_, ?_, ?_, ?_, ?_, ?_, ?_, ?_⟩ <;>
    intros <;> rfl

/-- C9 counterexample: two natives agreeing on name, set pointer, and node
id but whose call pointers sit at different addresses feed different token
streams to the hasher — the hashing identity does depend on the raw
function-pointer bit pattern, refuting the claim that natives are hashed
on a stable registration key independent of pointer bits. -/
theorem native_hash_ptr_cex :
    nativeHashStream nhA ≠ nativeHashStream nhB
    ∧ nhA.name = nhB.name
    ∧ nhA.setPtr = nhB.setPtr
    ∧ nhA.node = nhB.node
    ∧ nhA.funcPtr ≠ nhB.funcPtr :=
  ⟨by decide, rfl, rfl, rfl, by decide⟩

/-- C9 (amended): a native's hashing identity is the token stream of its
name, the raw bit pattern of its call pointer, the raw bit pattern of its
optional set-rule pointer, and its node id, in that order — there is no
registration key, and any two natives whose call pointers differ hash
differently regardless of every other field. -/
theorem native_hash_ptr_dependence :
    (∀ nh : NativeHashData,
      nativeHashStream nh
        = .strT nh.name :: .natT nh.funcPtr ::
            (optTokens nh.setPtr ++ optTokens nh.node))
    ∧ (∀ a b : NativeHashData, a.funcPtr ≠ b.funcPtr →
      nativeHashStream a ≠ nativeHashStream b) := by
  refine ⟨fun _ => rfl, ?_⟩
  intro a b hne heq
  simp only [nativeHashStream, List.cons.injEq, HashToken.natT.injEq,
    HashToken.strT.injEq] at heq
  exact hne heq.2.1

/-- C9 witness: the pointer-dependence part applied to the two concrete
natives that differ only in their call-pointer address. -/
theorem native_hash_ptr_dependence_witness :
    nativeHashStream nhA ≠ nativeHashStream nhB :=
  native_hash_ptr_dependence.2 nhA nhB (by decide)

/-- C10: cloning a function value preserves equality (a clone is a handle
to the same allocation, so it compares equal to the original), while the
hash input is the structural representation behind the handle and never
the allocation address; hence two function values with distinct addresses
but the same representation compare unequal yet have equal hash inputs. -/
theorem clone_preserves_eq_hash_structural :
    (∀ f : Func, funcEq (Func.clone f) f = true)
    ∧ (∀ (i j : Nat) (r : Repr),
      funcHashInput (.mk i r) = funcHashInput (.mk j r))
    ∧ (∀ (i j : Nat) (r₁ r₂ : Repr),
      funcEq (.mk i r₁) (.mk j r₂) = (i == j))
    ∧ (funcEq (.mk 0 exRepr) (.mk 1 exRepr) = false
      ∧ funcHashInput (.mk 0 exRepr) = funcHashInput (.mk 1 exRepr)) := by
  refine ⟨?_, fun _ _ _ => rfl, fun _ _ _ _ => rfl, rfl, rfl⟩
  intro f
  cases f
  simp [Func.clone, funcEq]

end Typst
